import Mathlib

/-!
Shallow embedding of `photo_watermark.py` (LittleExian/PhotoWatermark).

The repository is a single-script command line tool that stamps a text
watermark onto photographs.  The embedding below translates, function by
function, the pure computational content of the script:

* `getExifDate` models `get_exif_date`, with the EXIF dictionary and the
  possibility of an `Image.open` failure made explicit as an `ExifAccess`
  value.  The two `datetime.strptime` calls are modelled by executable
  parsers (`parseYmdHms`, `parseYmd`) that follow CPython's `_strptime`
  regular expressions for the format strings used by the script.
* `selectWatermarkText`, `computePosition` and `resolveFill` model the text
  selection, anchor computation and colour resolution steps of
  `add_watermark_to_image`.
* `add_watermark_to_image` models the whole renderer, with each fallible
  imaging-library call (open, font loading, draw, makedirs, save) made
  explicit as a boolean outcome in a `RenderEnv`; the Python `try/except`
  that wraps the function body becomes the early-`false` structure.
* `process_path` models the batch driver, with the filesystem made explicit
  (`InputKind`), `os.walk` results given as a list of relative-path/file
  pairs, and the `os.path` string functions (`dirname`, `basename`,
  `splitext`, `join`) reimplemented faithfully from `posixpath`.
-/

set_option autoImplicit false

namespace PhotoWatermark

/-! ### Decimal digits and zero padded rendering -/

/-- The character for a decimal digit `k ≤ 9`. -/
def digitChar (k : Nat) : Char := Char.ofNat (48 + k)

/-- Numeric value of a decimal digit character. -/
def digitVal (c : Char) : Nat := c.toNat - 48

/-- Two-digit zero padded decimal rendering (as by Python `%m`, `%d`, ...). -/
def pad2c (n : Nat) : List Char := [digitChar (n / 10), digitChar (n % 10)]

/-- Four-digit zero padded decimal rendering (as by Python `%Y`). -/
def pad4c (n : Nat) : List Char :=
  [digitChar (n / 1000), digitChar (n / 100 % 10), digitChar (n / 10 % 10), digitChar (n % 10)]

/-! ### `datetime.strptime` for the two formats used by the script -/

/-- Result of `datetime.strptime`: a parsed calendar date-time. -/
structure DateTimeM where
  year : Nat
  month : Nat
  day : Nat
  hour : Nat
  minute : Nat
  second : Nat
  deriving DecidableEq, Repr

/-- Parse exactly four decimal digits (CPython `_strptime` regex for `%Y`). -/
def parse4Y : List Char → Option (Nat × List Char)
  | a :: b :: c :: d :: rest =>
    if a.isDigit ∧ b.isDigit ∧ c.isDigit ∧ d.isDigit then
      some (1000 * digitVal a + 100 * digitVal b + 10 * digitVal c + digitVal d, rest)
    else none
  | _ => none

/-- Parse a one or two digit numeric field.  CPython's `_strptime` compiles
`%m`, `%d`, `%H`, `%M`, `%S` to regex alternations that accept a two-digit
value in `[min2, max2]` or a single digit `≥ min1`; because every field in
the formats `%Y:%m:%d %H:%M:%S` and `%Y:%m:%d` is followed by a non-digit
separator or the end of the data, the alternation is equivalent to this
deterministic two-digit-first rule. -/
def parseField (min2 max2 min1 : Nat) : List Char → Option (Nat × List Char)
  | c1 :: rest1 =>
    if c1.isDigit then
      match rest1 with
      | c2 :: rest2 =>
        if c2.isDigit then
          let v := 10 * digitVal c1 + digitVal c2
          if min2 ≤ v ∧ v ≤ max2 then some (v, rest2) else none
        else
          if min1 ≤ digitVal c1 then some (digitVal c1, c2 :: rest2) else none
      | [] => if min1 ≤ digitVal c1 then some (digitVal c1, []) else none
    else none
  | [] => none

/-- Parse one expected literal character of the format string. -/
def parseChar (c : Char) : List Char → Option (List Char)
  | x :: rest => if x = c then some rest else none
  | [] => none

/-- Gregorian leap year rule used by `datetime`. -/
def isLeapYear (y : Nat) : Bool :=
  y % 4 == 0 && (!(y % 100 == 0) || y % 400 == 0)

/-- Number of days of a month, as validated by the `datetime` constructor. -/
def daysInMonth (y m : Nat) : Nat :=
  if m = 2 then (if isLeapYear y then 29 else 28)
  else if m = 4 ∨ m = 6 ∨ m = 9 ∨ m = 11 then 30
  else 31

/-- Validity check performed by the `datetime` constructor (`MINYEAR = 1`,
`MAXYEAR = 9999`, day within the month, time fields in range). -/
def validDateTime (dt : DateTimeM) : Bool :=
  decide (1 ≤ dt.year ∧ dt.year ≤ 9999 ∧ 1 ≤ dt.month ∧ dt.month ≤ 12 ∧
    1 ≤ dt.day ∧ dt.day ≤ daysInMonth dt.year dt.month ∧
    dt.hour ≤ 23 ∧ dt.minute ≤ 59 ∧ dt.second ≤ 59)

/-- Model of `datetime.strptime(s, '%Y:%m:%d %H:%M:%S')`: `none` is a raised
`ValueError`.  `_strptime` requires the regex to consume the whole string. -/
def parseYmdHms (s : String) : Option DateTimeM := do
  let (y, r1) ← parse4Y s.data
  let r2 ← parseChar ':' r1
  let (mo, r3) ← parseField 1 12 1 r2
  let r4 ← parseChar ':' r3
  let (d, r5) ← parseField 1 31 1 r4
  let r6 ← parseChar ' ' r5
  let (h, r7) ← parseField 0 23 0 r6
  let r8 ← parseChar ':' r7
  let (mi, r9) ← parseField 0 59 0 r8
  let r10 ← parseChar ':' r9
  let (se, r11) ← parseField 0 59 0 r10
  let dt : DateTimeM := ⟨y, mo, d, h, mi, se⟩
  if r11 = [] ∧ validDateTime dt then some dt else none

/-- Model of `datetime.strptime(s, '%Y:%m:%d')` (the retry format); the time
fields default to zero. -/
def parseYmd (s : String) : Option DateTimeM := do
  let (y, r1) ← parse4Y s.data
  let r2 ← parseChar ':' r1
  let (mo, r3) ← parseField 1 12 1 r2
  let r4 ← parseChar ':' r3
  let (d, r5) ← parseField 1 31 1 r4
  let dt : DateTimeM := ⟨y, mo, d, 0, 0, 0⟩
  if r5 = [] ∧ validDateTime dt then some dt else none

/-- Model of `date_obj.strftime('%Y-%m-%d')`: zero padded
`YYYY-MM-DD` rendering of the parsed date. -/
def formatYmd (dt : DateTimeM) : String :=
  String.mk (pad4c dt.year ++ '-' :: (pad2c dt.month ++ '-' :: pad2c dt.day))

/-- Model of `date_str.split(' ')[0]`: the portion before the first space. -/
def beforeFirstSpace (s : String) : String :=
  String.mk (s.data.takeWhile (fun c => c ≠ ' '))

/-! ### `get_exif_date` -/

/-- A value stored in the EXIF dictionary: a Python string, or a value of any
other type (on which `strptime` raises `TypeError`). -/
inductive ExifVal where
  | s (v : String)
  | other
  deriving DecidableEq, Repr

/-- Outcome of `Image.open(...)._getexif()` for the purposes of
`get_exif_date`: the open itself may raise, `_getexif()` may return `None`,
or it returns a tag-indexed dictionary (modelled as an association list). -/
inductive ExifAccess where
  | openFail
  | noExif
  | exif (entries : List (Nat × ExifVal))
  deriving DecidableEq, Repr

/-- Model of `get_exif_date` (photo_watermark.py lines 17-44).  The outer
`try/except Exception` makes every failure path return `None`; the tag
36867 is `DateTimeOriginal`; a `ValueError` from the first `strptime` is
retried on the portion before the first space with format `%Y:%m:%d`, and
any failure of the retry is swallowed by the bare `except`. -/
def getExifDate (acc : ExifAccess) : Option String :=
  match acc with
  | .openFail => none
  | .noExif => none
  | .exif entries =>
    if entries = [] then none
    else
      match entries.lookup 36867 with
      | none => none
      | some .other => none
      | some (.s v) =>
        match parseYmdHms v with
        | some dt => some (formatYmd dt)
        | none =>
          match parseYmd (beforeFirstSpace v) with
          | some dt => some (formatYmd dt)
          | none => none

/-! ### Watermark text selection (photo_watermark.py lines 66-73) -/

/-- Python truthiness of an optional string: `None` and `''` are falsy. -/
def pyFalsyStr : Option String → Bool
  | none => true
  | some s => s.isEmpty

/-- Model of the text selection in `add_watermark_to_image`:
`watermark_text = get_exif_date(...)`; `if not watermark_text:` then
`if default_text:` use it, `else` use the current date string. -/
def selectWatermarkText (exifText defaultText : Option String) (today : String) : String :=
  if pyFalsyStr exifText then
    if pyFalsyStr defaultText then today else defaultText.getD ""
  else
    exifText.getD ""

/-! ### Anchor computation (photo_watermark.py lines 92-105) -/

/-- Model of the position if/elif chain.  Coordinates are Python `int`s, so
`Int` with `Int.fdiv` (Python floor division `//`) for the `center` case. -/
def computePosition (position : String) (width height text_width text_height : Int) :
    Int × Int :=
  let margin : Int := 10
  if position = "top-left" then (margin, margin)
  else if position = "top-right" then (width - text_width - margin, margin)
  else if position = "bottom-left" then (margin, height - text_height - margin)
  else if position = "bottom-right" then
    (width - text_width - margin, height - text_height - margin)
  else if position = "center" then
    ((width - text_width).fdiv 2, (height - text_height).fdiv 2)
  else (width - text_width - margin, height - text_height - margin)

/-! ### Colour resolution (photo_watermark.py lines 109-116) -/

/-- The `color` argument: a Python string (colour name) or any non-string
value such as an RGB/RGBA tuple, modelled as a list of channel values. -/
inductive PyColor where
  | name (s : String)
  | raw (t : List Nat)
  deriving DecidableEq, Repr

/-- Model of the colour conversion: for a string colour,
`ImageColor.getrgb` (given as an oracle, `none` meaning it raises) produces
a channel tuple to which the alpha `int(255 * opacity / 100)` is appended;
Python `int()` on a non-negative quotient truncates, which on `Nat` is `/`.
A non-string colour is used unchanged. -/
def resolveFill (getrgb : String → Option (List Nat)) (color : PyColor) (opacity : Nat) :
    Option (List Nat) :=
  match color with
  | .name s =>
    match getrgb s with
    | some rgb => some (rgb ++ [255 * opacity / 100])
    | none => none
  | .raw t => some t

/-! ### Observable events of a run (the prints and file writes) -/

/-- Observable effects of `process_path` / `add_watermark_to_image` that the
claims talk about: the missing-path error print, the unsupported-format
warning print, a successful save of an output file, and a per-file failure
print. -/
inductive PEvent where
  | errorMissing
  | warnUnsupported (path : String)
  | saved (outputPath : String)
  | failedFile (path : String)
  deriving DecidableEq, Repr

/-! ### `os.path` string functions (from CPython `posixpath`) -/

/-- Model of `s.startswith('/')`. -/
def startsWithSlash (s : String) : Bool := s.data.head? == some '/'

/-- Model of `s.endswith('/')`: the last character (the head of the reversed
character list) is a slash. -/
def endsWithSlash (s : String) : Bool := s.data.reverse.head? == some '/'

/-- Model of `os.path.basename` (`posixpath.basename`): the characters after
the last `'/'` (the whole string when there is none). -/
def basenameP (p : String) : String :=
  String.mk ((p.data.reverse.takeWhile (fun c => c ≠ '/')).reverse)

/-- Model of `os.path.dirname` (`posixpath.dirname`): everything up to the
last `'/'`; trailing slashes are stripped unless the head consists only of
slashes. -/
def dirnameP (p : String) : String :=
  let head := (p.data.reverse.dropWhile (fun c => c ≠ '/')).reverse
  if head = [] then ""
  else if head.all (fun c => c = '/') then String.mk head
  else String.mk ((head.reverse.dropWhile (fun c => c = '/')).reverse)

/-- Model of the two-argument `os.path.join` (`posixpath.join`). -/
def joinP (a b : String) : String :=
  if startsWithSlash b then b
  else if a = "" ∨ endsWithSlash a then a ++ b
  else a ++ "/" ++ b

/-- Model of `os.path.splitext(p)[1]` (`posixpath.splitext`): the extension
starts at the last dot of the basename, provided some earlier character of
the basename is not a dot (so leading dots never start an extension). -/
def splitextExt (p : String) : String :=
  let nm := (p.data.reverse.takeWhile (fun c => c ≠ '/')).reverse
  let tail := nm.reverse.takeWhile (fun c => c ≠ '.')
  if tail.length = nm.length then ""
  else
    let dotIdx := nm.length - tail.length - 1
    if (nm.take dotIdx).all (fun c => c = '.') then ""
    else String.mk (nm.drop dotIdx)

/-- Lower-casing of one character; extensions are ASCII, on which Python
`str.lower` is exactly the ASCII rule. -/
def lowerChar (c : Char) : Char :=
  if 'A' ≤ c ∧ c ≤ 'Z' then Char.ofNat (c.toNat + 32) else c

/-- Model of `str.lower` on extension strings. -/
def lowerStr (s : String) : String := String.mk (s.data.map lowerChar)

/-- Supported image formats (photo_watermark.py line 150). -/
def supported_formats : List String :=
  [".jpg", ".jpeg", ".png", ".bmp", ".tiff", ".gif"]

/-- The extension test `os.path.splitext(x)[1].lower() in supported_formats`
applied by `process_path` to single-file paths and to walked file names. -/
def isSupportedName (name : String) : Bool :=
  supported_formats.contains (lowerStr (splitextExt name))

/-! ### `add_watermark_to_image` (photo_watermark.py lines 47-131) -/

/-- Environment for one call of `add_watermark_to_image`: the outcome of
every fallible imaging-library call, plus the data the libraries would
return.  `openOk` covers `Image.open`/`ImageDraw.Draw`/`img.size`;
`fontFatal` is a failure of the final `ImageFont.load_default()` (the two
`truetype` attempts are each wrapped in their own `except` and so cannot
escape); `textSizeOf` is `draw.textsize`; `getrgb` is `ImageColor.getrgb`
(`none` meaning it raises); `drawOk` is `draw.text`; `makedirsOk` is
`os.makedirs`; `saveOk` is `img.save`.  `today` is
`datetime.now().strftime('%Y-%m-%d')`. -/
structure RenderEnv where
  openOk : Bool
  width : Int
  height : Int
  exif : ExifAccess
  today : String
  fontFatal : Bool
  textSizeOf : String → Nat × Nat
  getrgb : String → Option (List Nat)
  drawOk : Bool
  makedirsOk : Bool
  saveOk : Bool

/-- The keyword parameters of `add_watermark_to_image` that influence its
behaviour (`font_size` only feeds the font oracle and is absorbed into
`textSizeOf`). -/
structure WMParams where
  color : PyColor
  position : String
  opacity : Nat
  default_text : Option String

/-- Model of `add_watermark_to_image`: returns the Python boolean result
together with the observable events.  The single `try/except` wrapping the
body means the first failing step yields `(false, failure print)`; when
every step succeeds the output file `os.path.join(output_dir,
os.path.basename(image_path))` is written and `True` returned. -/
def add_watermark_to_image (env : RenderEnv) (image_path output_dir : String)
    (prm : WMParams) : Bool × List PEvent :=
  if env.openOk then
    let watermark_text :=
      selectWatermarkText (getExifDate env.exif) prm.default_text env.today
    if env.fontFatal then (false, [.failedFile image_path])
    else
      let tsize := env.textSizeOf watermark_text
      let _text_xy :=
        computePosition prm.position env.width env.height
          (Int.ofNat tsize.1) (Int.ofNat tsize.2)
      match resolveFill env.getrgb prm.color prm.opacity with
      | none => (false, [.failedFile image_path])
      | some _rgba_color =>
        if env.drawOk then
          if env.makedirsOk then
            if env.saveOk then
              (true, [.saved (joinP output_dir (basenameP image_path))])
            else (false, [.failedFile image_path])
          else (false, [.failedFile image_path])
        else (false, [.failedFile image_path])
    else (false, [.failedFile image_path])

/-! ### `process_path` (photo_watermark.py lines 134-197) -/

/-- A file discovered by `os.walk(input_path)`: its directory's path
relative to the walk root, as components, and its bare file name.
`rel = []` means the file sits directly in the walk root, where
`os.path.relpath(root, input_path)` returns `'.'`. -/
structure WalkFile where
  rel : List String
  name : String
  deriving DecidableEq, Repr

/-- The kind of thing `input_path` names on the filesystem: missing, a
regular file, or a directory whose recursive `os.walk` yields the given
files. -/
inductive InputKind where
  | missing
  | file
  | dir (files : List WalkFile)

/-- The walk root directory for a relative component list:
`input_path` itself, or `os.path.join`-ed with the components. -/
def walkRoot (input_path : String) (rel : List String) : String :=
  if rel = [] then input_path else joinP input_path (String.intercalate "/" rel)

/-- One iteration of the directory loop of `process_path` for a walked
file: events, increment of `total_count`, increment of `success_count`. -/
def processWalkFile (input_path output_dir : String) (envOf : String → RenderEnv)
    (prm : WMParams) (f : WalkFile) : List PEvent × Nat × Nat :=
  if isSupportedName f.name then
    let file_path := joinP (walkRoot input_path f.rel) f.name
    let target_output_dir :=
      if f.rel = [] then output_dir
      else joinP output_dir (String.intercalate "/" f.rel)
    let r := add_watermark_to_image (envOf file_path) file_path target_output_dir prm
    (r.2, 1, if r.1 then 1 else 0)
  else ([], 0, 0)

/-- The directory loop of `process_path`: left-to-right over the walked
files, concatenating events and summing the two counters. -/
def walkProcess (input_path output_dir : String) (envOf : String → RenderEnv)
    (prm : WMParams) : List WalkFile → List PEvent × Nat × Nat
  | [] => ([], 0, 0)
  | f :: rest =>
    let hd := processWalkFile input_path output_dir envOf prm f
    let tl := walkProcess input_path output_dir envOf prm rest
    (hd.1 ++ tl.1, hd.2.1 + tl.2.1, hd.2.2 + tl.2.2)

/-- Model of `process_path`: the observable events and, when the input path
exists, the printed summary `(total, success, failed)` with
`failed = total_count - success_count` exactly as printed on lines 195-197.
A missing path prints an error and returns before any processing, so the
summary is `none`. -/
def process_path (input_path : String) (kind : InputKind)
    (envOf : String → RenderEnv) (prm : WMParams) :
    List PEvent × Option (Nat × Nat × Nat) :=
  match kind with
  | .missing => ([.errorMissing], none)
  | .file =>
    let parent_dir := dirnameP input_path
    let output_dir := joinP parent_dir (basenameP parent_dir ++ "_watermark")
    if isSupportedName input_path then
      let r := add_watermark_to_image (envOf input_path) input_path output_dir prm
      (r.2, some (1, (if r.1 then 1 else 0), 1 - (if r.1 then 1 else 0)))
    else
      ([.warnUnsupported input_path], some (0, 0, 0))
  | .dir files =>
    let parent_dir := if dirnameP input_path = "" then "." else dirnameP input_path
    let output_dir := joinP parent_dir (basenameP input_path ++ "_watermark")
    let r := walkProcess input_path output_dir envOf prm files
    (r.1, some (r.2.1, r.2.2, r.2.1 - r.2.2))

/-- The dir-branch output directory of `process_path` (photo_watermark.py
lines 154-156): `os.path.join(parent_dir, dir_name + "_watermark")` with
`parent_dir` falling back to `'.'` when the dirname is empty. -/
def dirOutputDir (input_path : String) : String :=
  joinP (if dirnameP input_path = "" then "." else dirnameP input_path)
    (basenameP input_path ++ "_watermark")

/-- Canonical strictly zero padded `YYYY:MM:DD HH:MM:SS` rendering of a
date-time: the "conventional form" of EXIF `DateTimeOriginal` values named
by the specification. -/
def canonicalExifDT (y mo d hh mi se : Nat) : String :=
  String.mk (pad4c y ++ ':' :: (pad2c mo ++ ':' :: (pad2c d ++ ' ' ::
    (pad2c hh ++ ':' :: (pad2c mi ++ ':' :: pad2c se)))))

/-! ### Sample concrete values used by witnesses and counterexamples -/

/-- A render environment in which every imaging-library call succeeds. -/
def sampleEnv : RenderEnv where
  openOk := true
  width := 640
  height := 480
  exif := .noExif
  today := "2025-01-01"
  fontFatal := false
  textSizeOf := fun _ => (120, 20)
  getrgb := fun _ => some [255, 255, 255]
  drawOk := true
  makedirsOk := true
  saveOk := true

/-- Per-file environment oracle that always uses `sampleEnv`. -/
def sampleEnvOf : String → RenderEnv := fun _ => sampleEnv

/-- The default CLI parameters of the script. -/
def sampleParams : WMParams where
  color := .name "white"
  position := "bottom-right"
  opacity := 80
  default_text := none

/-- A render environment whose final `img.save` raises. -/
def failSaveEnv : RenderEnv := { sampleEnv with saveOk := false }

/-! ### Helper lemmas -/

theorem walkProcess_total (i o : String) (envOf : String → RenderEnv) (prm : WMParams)
    (fs : List WalkFile) :
    (walkProcess i o envOf prm fs).2.1
      = (fs.filter fun f => isSupportedName f.name).length := by
  induction fs with
  | nil => rfl
  | cons f rest ih =>
    by_cases hs : isSupportedName f.name
    · simp [walkProcess, processWalkFile, hs, ih]
      omega
    · simp [walkProcess, processWalkFile, hs, ih]

theorem ite_one_zero_le_one (P : Prop) [Decidable P] : (if P then 1 else 0) ≤ 1 := by
  split <;> decide

theorem walkProcess_succ_le (i o : String) (envOf : String → RenderEnv) (prm : WMParams)
    (fs : List WalkFile) :
    (walkProcess i o envOf prm fs).2.2 ≤ (walkProcess i o envOf prm fs).2.1 := by
  induction fs with
  | nil => exact Nat.le_refl 0
  | cons f rest ih =>
    have hf : (processWalkFile i o envOf prm f).2.2 ≤ (processWalkFile i o envOf prm f).2.1 := by
      unfold processWalkFile
      split
      · exact ite_one_zero_le_one _
      · exact Nat.le_refl 0
    simpa [walkProcess] using Nat.add_le_add hf ih

theorem walkProcess_filter (i o : String) (envOf : String → RenderEnv) (prm : WMParams)
    (fs : List WalkFile) :
    walkProcess i o envOf prm (fs.filter fun f => isSupportedName f.name)
      = walkProcess i o envOf prm fs := by
  induction fs with
  | nil => rfl
  | cons f rest ih =>
    by_cases hs : isSupportedName f.name
    · simp [List.filter_cons, hs, walkProcess, ih]
    · simp [List.filter_cons, hs, walkProcess, ih, processWalkFile]

theorem walkProcess_erase (i o : String) (envOf : String → RenderEnv) (prm : WMParams)
    (f : WalkFile) (fs : List WalkFile) (hmem : f ∈ fs)
    (hs : isSupportedName f.name = false) :
    walkProcess i o envOf prm (fs.erase f) = walkProcess i o envOf prm fs := by
  induction fs with
  | nil => cases hmem
  | cons g rest ih =>
    rw [List.erase_cons]
    by_cases hg : g = f
    · subst hg
      simp only [beq_self_eq_true, if_true]
      simp [walkProcess, processWalkFile, hs]
    · have hgf : (g == f) = false := by simp [hg]
      rw [hgf]
      simp only [Bool.false_eq_true, if_false]
      have hfr : f ∈ rest := List.mem_of_ne_of_mem (fun h => hg h.symm) hmem
      simp [walkProcess, ih hfr]

theorem process_path_dir_eq (input : String) (envOf : String → RenderEnv) (prm : WMParams)
    (files : List WalkFile) :
    process_path input (.dir files) envOf prm
      = ((walkProcess input (dirOutputDir input) envOf prm files).1,
          some ((walkProcess input (dirOutputDir input) envOf prm files).2.1,
            (walkProcess input (dirOutputDir input) envOf prm files).2.2,
            (walkProcess input (dirOutputDir input) envOf prm files).2.1
              - (walkProcess input (dirOutputDir input) envOf prm files).2.2)) := rfl

theorem mem_walkProcess_events (i o : String) (envOf : String → RenderEnv) (prm : WMParams)
    (f : WalkFile) (fs : List WalkFile) (hmem : f ∈ fs) (e : PEvent)
    (he : e ∈ (processWalkFile i o envOf prm f).1) :
    e ∈ (walkProcess i o envOf prm fs).1 := by
  induction fs with
  | nil => cases hmem
  | cons g rest ih =>
    rcases List.mem_cons.mp hmem with hg | hr
    · subst hg
      exact List.mem_append_left _ he
    · exact List.mem_append_right _ (ih hr)

theorem add_watermark_success_event (env : RenderEnv) (ip od : String) (prm : WMParams)
    (h : (add_watermark_to_image env ip od prm).1 = true) :
    (add_watermark_to_image env ip od prm).2 = [.saved (joinP od (basenameP ip))] := by
  cases hopen : env.openOk <;> cases hfont : env.fontFatal <;>
    cases hfill : resolveFill env.getrgb prm.color prm.opacity <;>
    cases hdraw : env.drawOk <;> cases hmk : env.makedirsOk <;> cases hsave : env.saveOk <;>
    simp_all [add_watermark_to_image]

theorem joinP_eq_append (a b : String) (ha : a ≠ "") (ha2 : endsWithSlash a = false)
    (hb : startsWithSlash b = false) : joinP a b = a ++ "/" ++ b := by
  simp [joinP, ha, ha2, hb]

theorem data_ne_nil_of_ne_empty (s : String) (h : s ≠ "") : s.data ≠ [] := by
  intro hd
  exact h (String.ext (by simp [hd]))

theorem ne_empty_of_data_eq_append (s : String) (l1 : List Char) (c : Char) (l2 : List Char)
    (h : s.data = l1 ++ c :: l2) : s ≠ "" := by
  intro he
  rw [he] at h
  exact absurd h.symm (List.append_ne_nil_of_right_ne_nil l1 (by simp))

theorem startsWithSlash_eq_false (s : String) (h : '/' ∉ s.data) :
    startsWithSlash s = false := by
  unfold startsWithSlash
  cases hd : s.data with
  | nil => rfl
  | cons c rest =>
    have hc : c ∈ s.data := by rw [hd]; exact List.mem_cons_self c rest
    have : c ≠ '/' := fun he => h (he ▸ hc)
    simp [this]

theorem endsWithSlash_eq_false (s : String) (h : '/' ∉ s.data) :
    endsWithSlash s = false := by
  unfold endsWithSlash
  cases hd : s.data.reverse with
  | nil => rfl
  | cons c rest =>
    have hc : c ∈ s.data := by
      rw [← List.mem_reverse, hd]
      exact List.mem_cons_self c rest
    have : c ≠ '/' := fun he => h (he ▸ hc)
    simp [this]

theorem endsWithSlash_append (a b : String) (hb : b ≠ "") :
    endsWithSlash (a ++ b) = endsWithSlash b := by
  unfold endsWithSlash
  rw [String.data_append, List.reverse_append, List.head?_append,
    Option.or_of_isSome (by simp [data_ne_nil_of_ne_empty b hb])]

theorem endsWithSlash_append_watermark (x : String) :
    endsWithSlash (x ++ "_watermark") = false := by
  rw [endsWithSlash_append x "_watermark" (by decide)]
  decide

theorem append_watermark_ne_empty (x : String) : x ++ "_watermark" ≠ "" := by
  intro h
  have := congrArg String.data h
  rw [String.data_append] at this
  exact absurd this (List.append_ne_nil_of_right_ne_nil _ (by decide))

theorem takeWhile_all_append (p : Char → Bool) (l1 l2 : List Char) (h : ∀ c ∈ l1, p c) :
    (l1 ++ l2).takeWhile p = l1 ++ l2.takeWhile p := by
  rw [List.takeWhile_append, if_pos]
  rw [List.takeWhile_eq_self_iff.mpr h]

theorem basenameP_append (a nm : String) (h : '/' ∉ nm.data) :
    basenameP (a ++ "/" ++ nm) = nm := by
  unfold basenameP
  apply String.ext
  have hdata : (a ++ "/" ++ nm).data = (a.data ++ ['/']) ++ nm.data := by
    simp [String.data_append]
  rw [hdata, List.reverse_append]
  have hall : ∀ c ∈ nm.data.reverse, (fun c => decide (c ≠ '/')) c = true := by
    intro c hc
    simp only [decide_eq_true_eq]
    exact fun he => h (he ▸ List.mem_reverse.mp hc)
  rw [takeWhile_all_append _ _ _ hall]
  simp

theorem digitChar_isDigit {k : Nat} (h : k ≤ 9) : (digitChar k).isDigit = true := by
  interval_cases k <;> decide

theorem digitVal_digitChar {k : Nat} (h : k ≤ 9) : digitVal (digitChar k) = k := by
  interval_cases k <;> decide

theorem parse4Y_pad4c (y : Nat) (rest : List Char) (h : y ≤ 9999) :
    parse4Y (pad4c y ++ rest) = some (y, rest) := by
  have h1 : y / 1000 ≤ 9 := by omega
  have h2 : y / 100 % 10 ≤ 9 := by omega
  have h3 : y / 10 % 10 ≤ 9 := by omega
  have h4 : y % 10 ≤ 9 := by omega
  simp only [pad4c, List.cons_append, List.nil_append, parse4Y]
  rw [if_pos ⟨digitChar_isDigit h1, digitChar_isDigit h2,
    digitChar_isDigit h3, digitChar_isDigit h4⟩]
  rw [digitVal_digitChar h1, digitVal_digitChar h2,
    digitVal_digitChar h3, digitVal_digitChar h4]
  have hv : 1000 * (y / 1000) + 100 * (y / 100 % 10) + 10 * (y / 10 % 10) + y % 10 = y := by
    omega
  rw [hv]

theorem parseField_pad2c (min2 max2 min1 v : Nat) (rest : List Char)
    (h1 : min2 ≤ v) (h2 : v ≤ max2) (h99 : v ≤ 99) :
    parseField min2 max2 min1 (pad2c v ++ rest) = some (v, rest) := by
  have ha : v / 10 ≤ 9 := by omega
  have hb : v % 10 ≤ 9 := by omega
  simp only [pad2c, List.cons_append, List.nil_append, parseField]
  rw [if_pos (digitChar_isDigit ha)]
  rw [if_pos (digitChar_isDigit hb)]
  rw [digitVal_digitChar ha, digitVal_digitChar hb]
  have hv : 10 * (v / 10) + v % 10 = v := by omega
  rw [hv, if_pos ⟨h1, h2⟩]

theorem parseChar_cons (c : Char) (rest : List Char) :
    parseChar c (c :: rest) = some rest := by
  simp [parseChar]

theorem daysInMonth_le (y m : Nat) : daysInMonth y m ≤ 31 := by
  unfold daysInMonth
  split
  · split <;> decide
  · split <;> decide

theorem parseYmdHms_canonical (y mo d hh mi se : Nat)
    (hy1 : 1 ≤ y) (hy2 : y ≤ 9999) (hmo1 : 1 ≤ mo) (hmo2 : mo ≤ 12)
    (hd1 : 1 ≤ d) (hd2 : d ≤ daysInMonth y mo)
    (hhh : hh ≤ 23) (hmi : mi ≤ 59) (hse : se ≤ 59) :
    parseYmdHms (canonicalExifDT y mo d hh mi se) = some ⟨y, mo, d, hh, mi, se⟩ := by
  have hd31 : d ≤ 31 := le_trans hd2 (daysInMonth_le y mo)
  have hvalid : validDateTime ⟨y, mo, d, hh, mi, se⟩ = true := by
    simp only [validDateTime, decide_eq_true_eq]
    exact ⟨hy1, hy2, hmo1, hmo2, hd1, hd2, hhh, hmi, hse⟩
  have hp4 := parse4Y_pad4c y
    (':' :: (pad2c mo ++ ':' :: (pad2c d ++ ' ' ::
      (pad2c hh ++ ':' :: (pad2c mi ++ ':' :: pad2c se))))) hy2
  have pmo := parseField_pad2c 1 12 1 mo
    (':' :: (pad2c d ++ ' ' :: (pad2c hh ++ ':' :: (pad2c mi ++ ':' :: pad2c se))))
    hmo1 hmo2 (by omega)
  have pd := parseField_pad2c 1 31 1 d
    (' ' :: (pad2c hh ++ ':' :: (pad2c mi ++ ':' :: pad2c se)))
    hd1 hd31 (by omega)
  have phh := parseField_pad2c 0 23 0 hh
    (':' :: (pad2c mi ++ ':' :: pad2c se)) (Nat.zero_le hh) hhh (by omega)
  have pmi := parseField_pad2c 0 59 0 mi
    (':' :: pad2c se) (Nat.zero_le mi) hmi (by omega)
  have pse : parseField 0 59 0 (pad2c se ++ []) = some (se, []) :=
    parseField_pad2c 0 59 0 se [] (Nat.zero_le se) hse (by omega)
  rw [List.append_nil] at pse
  simp [parseYmdHms, canonicalExifDT, hp4, pmo, pd, phh, pmi, pse,
    parseChar_cons, hvalid]

theorem isEmpty_mk_cons (c : Char) (l : List Char) :
    (String.mk (c :: l)).isEmpty = false := by
  rw [Bool.eq_false_iff]
  intro h
  have := (String.isEmpty_iff _).mp h
  have hd := congrArg String.data this
  simp at hd

/-! ### Claims -/

/-- C1: for every image width `W`, height `H` and text size `tw × th`,
`add_watermark_to_image` computes the text anchor with a fixed 10-pixel
margin: top-left `(10, 10)`; top-right `(W-tw-10, 10)`; bottom-left
`(10, H-th-10)`; bottom-right `(W-tw-10, H-th-10)`; center
`((W-tw)/2, (H-th)/2)` with Python floor division; and every other position
string falls through to the bottom-right formula. -/
theorem c1_anchor_formulas (w h tw th : Int) :
    computePosition "top-left" w h tw th = (10, 10) ∧
    computePosition "top-right" w h tw th = (w - tw - 10, 10) ∧
    computePosition "bottom-left" w h tw th = (10, h - th - 10) ∧
    computePosition "bottom-right" w h tw th = (w - tw - 10, h - th - 10) ∧
    computePosition "center" w h tw th = ((w - tw).fdiv 2, (h - th).fdiv 2) ∧
    (∀ p : String,
      p ∉ ["top-left", "top-right", "bottom-left", "bottom-right", "center"] →
      computePosition p w h tw th = (w - tw - 10, h - th - 10)) := by
  refine ⟨rfl, rfl, rfl, rfl, rfl, ?_⟩
  intro p hp
  simp only [List.mem_cons, List.mem_singleton, not_or] at hp
  obtain ⟨h1, h2, h3, h4, h5, -⟩ := hp
  simp [computePosition, h1, h2, h3, h4, h5]

/-- C1 witness: the theorem applied at a concrete unrecognized position
value, discharging the membership hypothesis. -/
theorem c1_anchor_formulas_witness :
    computePosition "middle" 640 480 120 20 = (640 - 120 - 10, 480 - 20 - 10) :=
  (c1_anchor_formulas 640 480 120 20).2.2.2.2.2 "middle" (by decide)

/-- C2 counterexample: at opacity 3 the code computes the alpha component
`int(255 * 3 / 100) = 7`, while the claimed formula `round(255 * 3 / 100)`
gives `round(7.65) = 8`; so the alpha is not `round(255 * opacity / 100)`. -/
theorem c2_alpha_counterexample :
    resolveFill (fun _ => some [255, 255, 255]) (.name "white") 3
      = some [255, 255, 255, 7] ∧
    round ((255 * 3 : ℚ) / 100) = 8 ∧ (7 : ℤ) ≠ 8 := by
  refine ⟨by decide, ?_, by decide⟩
  rw [round_eq]
  norm_num

/-- C2 (amended): for every string colour resolved by `ImageColor.getrgb`,
the appended alpha component equals `int(255 * opacity / 100)`, i.e. the
floor `255 * opacity / 100` in natural division (truncation, not rounding);
in particular opacity 0 yields alpha 0 and opacity 100 yields alpha 255. -/
theorem c2_alpha_floor (getrgb : String → Option (List Nat)) (s : String)
    (rgb : List Nat) (opacity : Nat) (h : getrgb s = some rgb) :
    resolveFill getrgb (.name s) opacity = some (rgb ++ [255 * opacity / 100]) ∧
    resolveFill getrgb (.name s) 0 = some (rgb ++ [0]) ∧
    resolveFill getrgb (.name s) 100 = some (rgb ++ [255]) := by
  refine ⟨?_, ?_, ?_⟩ <;> simp [resolveFill, h]

/-- C2 witness: the amended theorem applied at the default opacity 80 with a
concrete `getrgb` oracle; the alpha component is `int(255 * 80 / 100) = 204`. -/
theorem c2_alpha_floor_witness :
    resolveFill (fun _ => some [255, 255, 255]) (.name "white") 80
      = some [255, 255, 255, 204] := by
  have h := c2_alpha_floor (fun _ => some [255, 255, 255]) "white" [255, 255, 255] 80 rfl
  simpa using h.1

/-- C3 counterexample: with no capture-date metadata and the default text
supplied as the empty string, the watermark is the current date, not the
supplied text — Python's `if default_text:` truthiness test ignores an
empty supplied default, so "the watermark equals exactly that supplied
text" fails at this input. -/
theorem c3_text_counterexample :
    selectWatermarkText (getExifDate .noExif) (some "") "2025-01-01" = "2025-01-01" ∧
    ("2025-01-01" : String) ≠ "" :=
  ⟨rfl, by decide⟩

/-- C3 (amended): the watermark text priority is: a capture date in
canonical `YYYY:MM:DD HH:MM:SS` form is reformatted to `YYYY-MM-DD`;
otherwise a supplied *nonempty* default text is used exactly; otherwise
(no default, or an empty default) the current date string at render time
is used. -/
theorem c3_text_selection (y mo d hh mi se : Nat) (dtx : Option String) (today : String)
    (hy1 : 1 ≤ y) (hy2 : y ≤ 9999) (hmo1 : 1 ≤ mo) (hmo2 : mo ≤ 12)
    (hd1 : 1 ≤ d) (hd2 : d ≤ daysInMonth y mo)
    (hhh : hh ≤ 23) (hmi : mi ≤ 59) (hse : se ≤ 59) :
    selectWatermarkText
        (getExifDate (.exif [(36867, .s (canonicalExifDT y mo d hh mi se))])) dtx today
      = String.mk (pad4c y ++ '-' :: (pad2c mo ++ '-' :: pad2c d)) ∧
    (∀ t : String, t ≠ "" →
      selectWatermarkText (getExifDate .noExif) (some t) today = t) ∧
    selectWatermarkText (getExifDate .noExif) none today = today ∧
    selectWatermarkText (getExifDate .noExif) (some "") today = today := by
  refine ⟨?_, ?_, rfl, rfl⟩
  · have hparse := parseYmdHms_canonical y mo d hh mi se
      hy1 hy2 hmo1 hmo2 hd1 hd2 hhh hmi hse
    have hexif : getExifDate (.exif [(36867, .s (canonicalExifDT y mo d hh mi se))])
        = some (formatYmd ⟨y, mo, d, hh, mi, se⟩) := by
      simp [getExifDate, List.lookup_cons, hparse]
    rw [hexif]
    have hfmt : formatYmd ⟨y, mo, d, hh, mi, se⟩
        = String.mk (pad4c y ++ '-' :: (pad2c mo ++ '-' :: pad2c d)) := rfl
    have hne : pad4c y ++ '-' :: (pad2c mo ++ '-' :: pad2c d)
        = digitChar (y / 1000) :: (digitChar (y / 100 % 10) :: digitChar (y / 10 % 10)
            :: digitChar (y % 10) :: '-' :: (pad2c mo ++ '-' :: pad2c d)) := rfl
    simp only [selectWatermarkText, pyFalsyStr, hfmt, hne, isEmpty_mk_cons,
      Bool.false_eq_true, if_false, Option.getD_some]
  · intro t ht
    have hemp : t.isEmpty = false := by
      rw [Bool.eq_false_iff]
      intro h
      exact ht ((String.isEmpty_iff _).mp h)
    simp [selectWatermarkText, getExifDate, pyFalsyStr, hemp]

/-- C3 witness: the theorem applied at the concrete capture date
`2023:10:15 14:30:25`, a concrete nonempty default text, and the
no-metadata/no-default fallback. -/
theorem c3_text_selection_witness :
    selectWatermarkText
        (getExifDate (.exif [(36867, .s (canonicalExifDT 2023 10 15 14 30 25))]))
        none "2025-01-01" = "2023-10-15" ∧
    selectWatermarkText (getExifDate .noExif) (some "MyText") "2025-01-01" = "MyText" ∧
    selectWatermarkText (getExifDate .noExif) none "2025-01-01" = "2025-01-01" := by
  have h := c3_text_selection 2023 10 15 14 30 25 none "2025-01-01"
    (by decide) (by decide) (by decide) (by decide) (by decide) (by decide)
    (by decide) (by decide) (by decide)
  exact ⟨h.1.trans (by decide), h.2.1 "MyText" (by decide), h.2.2.1⟩

/-- C4: `get_exif_date` never raises: the open failure, absent metadata,
empty metadata dictionary, absent tag 36867 and non-string tag value all
yield `none`; a string value is parsed as `YYYY:MM:DD HH:MM:SS` and
reformatted on success, while a parse failure is retried on the portion
before the first space with format `YYYY:MM:DD`, whose own failure again
yields `none` (the map over the retry result). -/
theorem c4_get_exif_date_total :
    getExifDate .openFail = none ∧
    getExifDate .noExif = none ∧
    getExifDate (.exif []) = none ∧
    (∀ entries : List (Nat × ExifVal), entries.lookup 36867 = none →
      getExifDate (.exif entries) = none) ∧
    (∀ entries : List (Nat × ExifVal), entries.lookup 36867 = some .other →
      getExifDate (.exif entries) = none) ∧
    (∀ (entries : List (Nat × ExifVal)) (v : String) (dt : DateTimeM),
      entries.lookup 36867 = some (.s v) → parseYmdHms v = some dt →
      getExifDate (.exif entries) = some (formatYmd dt)) ∧
    (∀ (entries : List (Nat × ExifVal)) (v : String),
      entries.lookup 36867 = some (.s v) → parseYmdHms v = none →
      getExifDate (.exif entries)
        = (parseYmd (beforeFirstSpace v)).map formatYmd) := by
  refine ⟨rfl, rfl, rfl, ?_, ?_, ?_, ?_⟩
  · intro es h
    by_cases he : es = [] <;> simp [getExifDate, he, h]
  · intro es h
    have he : es ≠ [] := by rintro rfl; simp at h
    simp [getExifDate, he, h]
  · intro es v dt h hp
    have he : es ≠ [] := by rintro rfl; simp at h
    simp [getExifDate, he, h, hp]
  · intro es v h hp
    have he : es ≠ [] := by rintro rfl; simp at h
    simp only [getExifDate, if_neg he, h, hp]
    cases hq : parseYmd (beforeFirstSpace v) <;> simp [hq]

/-- C4 witness: the clauses of the theorem applied at concrete EXIF
dictionaries — absent tag, well-formed date, and malformed time that the
date-only retry rescues. -/
theorem c4_get_exif_date_total_witness :
    getExifDate (.exif [(1, .s "x")]) = none ∧
    getExifDate (.exif [(36867, .s "2023:10:15 14:30:25")]) = some "2023-10-15" ∧
    getExifDate (.exif [(36867, .s "2023:10:15 garbage")]) = some "2023-10-15" := by
  refine ⟨?_, ?_, ?_⟩
  · exact c4_get_exif_date_total.2.2.2.1 _ (by decide)
  · have h := c4_get_exif_date_total.2.2.2.2.2.1
      [(36867, ExifVal.s "2023:10:15 14:30:25")] "2023:10:15 14:30:25"
      ⟨2023, 10, 15, 14, 30, 25⟩ (by decide) (by decide)
    exact h.trans (by decide)
  · have h := c4_get_exif_date_total.2.2.2.2.2.2
      [(36867, ExifVal.s "2023:10:15 garbage")] "2023:10:15 garbage"
      (by decide) (by decide)
    exact h.trans (by decide)

/-- C8: for a missing input path, `process_path` prints the error message
and returns: no summary counters are produced and no file event (save,
failure or warning) occurs. -/
theorem c8_missing_path (input : String) (envOf : String → RenderEnv) (prm : WMParams) :
    process_path input .missing envOf prm = ([.errorMissing], none) := rfl

/-- C10: a non-string colour (e.g. an RGB or RGBA tuple) is used directly as
the text fill: no alpha component is appended and the opacity parameter has
no effect on the resolved fill. -/
theorem c10_raw_color_ignores_opacity (getrgb : String → Option (List Nat))
    (t : List Nat) (o1 o2 : Nat) :
    resolveFill getrgb (.raw t) o1 = some t ∧
    resolveFill getrgb (.raw t) o1 = resolveFill getrgb (.raw t) o2 :=
  ⟨rfl, rfl⟩

/-- C5: on a directory input, `process_path` attempts exactly the `N` files
with supported extensions: the summary is `(N, success, N - success)` with
`success ≤ N`, the failed count printed being `total - success`; and the
whole run (events and counters) is unchanged when the unsupported files are
removed from the walk, so they contribute to no counter and produce no
output file. -/
theorem c5_directory_counts (input : String) (envOf : String → RenderEnv)
    (prm : WMParams) (files : List WalkFile) :
    ∃ evs succ,
      process_path input (.dir files) envOf prm
        = (evs, some ((files.filter fun f => isSupportedName f.name).length, succ,
            (files.filter fun f => isSupportedName f.name).length - succ)) ∧
      succ ≤ (files.filter fun f => isSupportedName f.name).length ∧
      process_path input (.dir files) envOf prm
        = process_path input
            (.dir (files.filter fun f => isSupportedName f.name)) envOf prm := by
  refine ⟨(walkProcess input (dirOutputDir input) envOf prm files).1,
    (walkProcess input (dirOutputDir input) envOf prm files).2.2, ?_, ?_, ?_⟩
  · rw [process_path_dir_eq, walkProcess_total]
  · rw [← walkProcess_total input (dirOutputDir input) envOf prm files]
    exact walkProcess_succ_le input (dirOutputDir input) envOf prm files
  · rw [process_path_dir_eq, process_path_dir_eq, walkProcess_filter]

/-- C6 counterexample: a directory containing one unsupported file produces
no event at all — in particular no warning message — while the claim says a
warning is printed in the recursive directory case too (the warning print
exists only in the single-file branch of `process_path`). -/
theorem c6_counterexample :
    process_path "photos" (.dir [⟨[], "notes.txt"⟩]) sampleEnvOf sampleParams
      = ([], some (0, 0, 0)) := by
  decide

/-- C6 (amended): every file whose lower-cased extension is not one of
`.jpg .jpeg .png .bmp .tiff .gif` is skipped and does not count toward the
totals; in the single-file case a warning is printed, while in the
recursive directory case it is skipped silently (removing the unsupported
file changes nothing in the run). -/
theorem c6_unsupported_skipped :
    (∀ (input : String) (envOf : String → RenderEnv) (prm : WMParams),
      isSupportedName input = false →
      process_path input .file envOf prm
        = ([.warnUnsupported input], some (0, 0, 0))) ∧
    (∀ (input : String) (envOf : String → RenderEnv) (prm : WMParams)
        (files : List WalkFile) (f : WalkFile),
      f ∈ files → isSupportedName f.name = false →
      process_path input (.dir (files.erase f)) envOf prm
        = process_path input (.dir files) envOf prm) := by
  constructor
  · intro input envOf prm h
    simp [process_path, h]
  · intro input envOf prm files f hmem hs
    rw [process_path_dir_eq, process_path_dir_eq,
      walkProcess_erase input (dirOutputDir input) envOf prm f files hmem hs]

/-- C6 witness: the amended theorem applied to a concrete unsupported
single file and to a concrete directory where erasing the unsupported file
leaves the run unchanged. -/
theorem c6_unsupported_skipped_witness :
    process_path "notes.txt" .file sampleEnvOf sampleParams
      = ([.warnUnsupported "notes.txt"], some (0, 0, 0)) ∧
    process_path "photos"
        (.dir (([⟨[], "b.txt"⟩, ⟨[], "a.jpg"⟩] : List WalkFile).erase ⟨[], "b.txt"⟩))
        sampleEnvOf sampleParams
      = process_path "photos" (.dir [⟨[], "b.txt"⟩, ⟨[], "a.jpg"⟩])
          sampleEnvOf sampleParams :=
  ⟨c6_unsupported_skipped.1 "notes.txt" sampleEnvOf sampleParams (by decide),
   c6_unsupported_skipped.2 "photos" sampleEnvOf sampleParams
     [⟨[], "b.txt"⟩, ⟨[], "a.jpg"⟩] ⟨[], "b.txt"⟩ (by decide) (by decide)⟩

/-- C9: `add_watermark_to_image` never propagates an exception: a failure
of any step (open, font loading, colour resolution, drawing, directory
creation, saving) makes the call return `False` with only the per-file
failure print; and the batch is unaffected — the directory summary over
`f :: rest` is the per-file contribution of `f` plus the summary over
`rest`, so one file's failure leaves the remaining files processed and each
failure counted independently. -/
theorem c9_exceptions_contained :
    (∀ (env : RenderEnv) (ip od : String) (prm : WMParams),
      env.openOk = false ∨ env.fontFatal = true ∨
        resolveFill env.getrgb prm.color prm.opacity = none ∨
        env.drawOk = false ∨ env.makedirsOk = false ∨ env.saveOk = false →
      add_watermark_to_image env ip od prm = (false, [.failedFile ip])) ∧
    (∀ (input : String) (envOf : String → RenderEnv) (prm : WMParams)
        (f : WalkFile) (rest : List WalkFile),
      ∃ t1 s1 t2 s2,
        (process_path input (.dir [f]) envOf prm).2 = some (t1, s1, t1 - s1) ∧
        (process_path input (.dir rest) envOf prm).2 = some (t2, s2, t2 - s2) ∧
        (process_path input (.dir (f :: rest)) envOf prm).2
          = some (t1 + t2, s1 + s2, t1 + t2 - (s1 + s2))) := by
  constructor
  · intro env ip od prm h
    cases hopen : env.openOk <;> cases hfont : env.fontFatal <;>
      cases hfill : resolveFill env.getrgb prm.color prm.opacity <;>
      cases hdraw : env.drawOk <;> cases hmk : env.makedirsOk <;>
      cases hsave : env.saveOk <;>
      simp_all [add_watermark_to_image]
  · intro input envOf prm f rest
    refine ⟨(processWalkFile input (dirOutputDir input) envOf prm f).2.1,
      (processWalkFile input (dirOutputDir input) envOf prm f).2.2,
      (walkProcess input (dirOutputDir input) envOf prm rest).2.1,
      (walkProcess input (dirOutputDir input) envOf prm rest).2.2, ?_, ?_, ?_⟩
    · rw [process_path_dir_eq]
      simp [walkProcess]
    · rw [process_path_dir_eq]
    · rw [process_path_dir_eq]
      simp [walkProcess]

/-- C9 witness: the theorem applied at a concrete environment whose save
step fails, and at a concrete directory whose first file fails while the
second is still processed. -/
theorem c9_exceptions_contained_witness :
    add_watermark_to_image failSaveEnv "photos/img1.jpg" "photos_watermark" sampleParams
      = (false, [.failedFile "photos/img1.jpg"]) :=
  c9_exceptions_contained.1 failSaveEnv "photos/img1.jpg" "photos_watermark" sampleParams
    (Or.inr (Or.inr (Or.inr (Or.inr (Or.inr rfl)))))

/-- C7: for a directory input (given in canonical form: it splits as
`parent/basename`, with a nonempty parent and no trailing slash), the
output root computed by `process_path` is the sibling directory
`<root>_watermark`; and a supported file at relative path `sub/name` whose
render succeeds is saved to `<root>_watermark/sub/name`, preserving the
relative subdirectory structure (the renderer creates the intermediate
output directories via `os.makedirs(..., exist_ok=True)`). -/
theorem c7_output_mirrors_structure (input sub name : String)
    (envOf : String → RenderEnv) (prm : WMParams) (files : List WalkFile)
    (hsplit : input = dirnameP input ++ "/" ++ basenameP input)
    (hparent : dirnameP input ≠ "")
    (hparentS : endsWithSlash (dirnameP input) = false)
    (hinputS : endsWithSlash input = false)
    (hbw : startsWithSlash (basenameP input ++ "_watermark") = false)
    (hsub1 : sub ≠ "") (hsub2 : '/' ∉ sub.data)
    (hname : '/' ∉ name.data)
    (hmem : (⟨[sub], name⟩ : WalkFile) ∈ files)
    (hsupp : isSupportedName name = true)
    (hrender : ∀ ip od, (add_watermark_to_image (envOf ip) ip od prm).1 = true) :
    dirOutputDir input = input ++ "_watermark" ∧
    PEvent.saved (input ++ "_watermark" ++ "/" ++ sub ++ "/" ++ name)
      ∈ (process_path input (.dir files) envOf prm).1 := by
  have hinput_ne : input ≠ "" := by
    have hd := congrArg String.data hsplit
    simp only [String.data_append] at hd
    refine ne_empty_of_data_eq_append input (dirnameP input).data '/'
      (basenameP input).data (hd.trans ?_)
    simp
  have hsubS : startsWithSlash sub = false := startsWithSlash_eq_false sub hsub2
  have hsubE : endsWithSlash sub = false := endsWithSlash_eq_false sub hsub2
  have hnameS : startsWithSlash name = false := startsWithSlash_eq_false name hname
  have hod : dirOutputDir input = input ++ "_watermark" := by
    unfold dirOutputDir
    rw [if_neg hparent, joinP_eq_append _ _ hparent hparentS hbw]
    conv_rhs => rw [hsplit]
    exact (String.append_assoc _ _ _).symm
  have hwr : walkRoot input [sub] = input ++ "/" ++ sub := by
    unfold walkRoot
    rw [if_neg (by simp), show String.intercalate "/" [sub] = sub from rfl,
      joinP_eq_append _ _ hinput_ne hinputS hsubS]
  have hfe : endsWithSlash (input ++ "/" ++ sub) = false := by
    rw [endsWithSlash_append _ sub hsub1]
    exact hsubE
  have hfp_ne : input ++ "/" ++ sub ≠ "" :=
    ne_empty_of_data_eq_append _ input.data '/' sub.data (by simp [String.data_append])
  have hfp : joinP (walkRoot input [sub]) name = input ++ "/" ++ sub ++ "/" ++ name := by
    rw [hwr, joinP_eq_append _ _ hfp_ne hfe hnameS]
  have hbn : basenameP (input ++ "/" ++ sub ++ "/" ++ name) = name :=
    basenameP_append (input ++ "/" ++ sub) name hname
  have hwm_ne : input ++ "_watermark" ≠ "" := append_watermark_ne_empty input
  have hwmE : endsWithSlash (input ++ "_watermark") = false :=
    endsWithSlash_append_watermark input
  have htgt : joinP (dirOutputDir input) (String.intercalate "/" [sub])
      = input ++ "_watermark" ++ "/" ++ sub := by
    rw [hod, show String.intercalate "/" [sub] = sub from rfl,
      joinP_eq_append _ _ hwm_ne hwmE hsubS]
  have htgtE : endsWithSlash (input ++ "_watermark" ++ "/" ++ sub) = false := by
    rw [endsWithSlash_append _ sub hsub1]
    exact hsubE
  have htgt_ne : input ++ "_watermark" ++ "/" ++ sub ≠ "" :=
    ne_empty_of_data_eq_append _ (input ++ "_watermark").data '/' sub.data
      (by simp [String.data_append])
  have hpe : (processWalkFile input (dirOutputDir input) envOf prm ⟨[sub], name⟩).1
      = [.saved (input ++ "_watermark" ++ "/" ++ sub ++ "/" ++ name)] := by
    simp only [processWalkFile, hsupp, if_true]
    rw [if_neg (by simp), hfp, htgt]
    rw [add_watermark_success_event _ _ _ _ (hrender _ _), hbn,
      joinP_eq_append _ _ htgt_ne htgtE hnameS]
  refine ⟨hod, ?_⟩
  rw [process_path_dir_eq]
  exact mem_walkProcess_events input (dirOutputDir input) envOf prm
    ⟨[sub], name⟩ files hmem _ (by rw [hpe]; exact List.mem_singleton_self _)

/-- C7 witness: the theorem applied to the concrete directory
`data/photos` containing `sub/a.jpg` with an always-succeeding render
environment. -/
theorem c7_output_mirrors_structure_witness :
    dirOutputDir "data/photos" = "data/photos" ++ "_watermark" ∧
    PEvent.saved ("data/photos" ++ "_watermark" ++ "/" ++ "sub" ++ "/" ++ "a.jpg")
      ∈ (process_path "data/photos" (.dir [⟨["sub"], "a.jpg"⟩])
          sampleEnvOf sampleParams).1 :=
  c7_output_mirrors_structure "data/photos" "sub" "a.jpg" sampleEnvOf sampleParams
    [⟨["sub"], "a.jpg"⟩] (by decide) (by decide) (by decide) (by decide) (by decide)
    (by decide) (by decide) (by decide) (by decide) (by decide)
    (fun ip od => rfl)

end PhotoWatermark
